import Mathlib

/-!
Shallow embedding of `packages/@tailwindcss-browser/src/index.ts`.

The module-level mutable state of the TypeScript file (`compiler`,
`processedClasses`, `sheet`, `buildQueue`) is modelled by explicit state
passing over `TWState` / `SysState`.  The external `tailwindcss` compiler
engine is an external collaborator: it is passed in as an `Env` (the
`tailwindcss.compile` operation) producing `Engine` values (whose `build`
is the `compiler.build` operation).  Exceptions are modelled by an
`Option String` error component; the promise-chain build queue is
modelled as a FIFO list of pending tasks executed by `runNextTask`.
-/

/-- An installed compiler engine instance: `compiler.build(classNames)`
returns CSS text or throws (modelled as `Except`). -/
structure Engine where
  build : List String → Except String String

/-- The external `tailwindcss.compile(css, ...)` operation: from CSS source
text it produces an engine instance or throws. -/
structure Env where
  compile : String → Except String Engine

/-- The module-level mutable state of `index.ts`: the current compiler
(`let compiler`), the registry (`const processedClasses = new Set()`),
the stylesheet element (`let sheet`, `none` while it does not exist yet,
`some txt` once created with text content `txt`), and the log of errors
reported through the instrumentation channel (`I.error`). -/
structure TWState where
  compiler : Option Engine
  processedClasses : List String
  sheet : Option String
  errorLog : List String

/-- The whole system: the module state plus the pending build queue
(`let buildQueue`), kept as the FIFO list of class-name lists not yet
processed. -/
structure SysState where
  core : TWState
  queue : List (List String)

/-- The fresh state at module load time. -/
def initialTW : TWState :=
  { compiler := none, processedClasses := [], sheet := none, errorLog := [] }

/-- The default CSS source used by `initializeCompiler` when no custom CSS
is supplied. -/
def defaultCss : String := "@import \"tailwindcss\";"

/-- The effect of a successful `initializeCompiler` body: install the new
engine and lazily create the stylesheet element (empty text content) if it
does not exist yet. -/
def installCompiler (c : Engine) (s : TWState) : TWState :=
  { s with compiler := some c,
           sheet := if s.sheet.isNone then some "" else s.sheet }

/-- `initializeCompiler(customCss?)`: compile either the custom CSS or the
default CSS.  On success the engine is installed and the sheet lazily
created; on failure (`tailwindcss.compile` throws) the state is left
untouched and the error is rethrown (second component). -/
def initializeCompiler (env : Env) (customCss : Option String) (s : TWState) :
    TWState × Option String :=
  let css := customCss.getD defaultCss
  match env.compile css with
  | .error e => (s, some e)
  | .ok c => (installCompiler c s, none)

/-- One `processedClasses.add(cls)` call on the JS `Set`: idempotent,
appends at the end in insertion order. -/
def insertClass (registry : List String) (cls : String) : List String :=
  if registry.contains cls then registry else registry ++ [cls]

/-- The `for (const cls of newClasses) processedClasses.add(cls)` loop. -/
def insertAll (registry : List String) (classes : List String) : List String :=
  classes.foldl insertClass registry

/-- The new classes of a `processClasses(classNames)` call:
`classNames.filter((cls) => !processedClasses.has(cls))`. -/
def newClassesOf (s1 : TWState) (classNames : List String) : List String :=
  classNames.filter (fun cls => !s1.processedClasses.contains cls)

/-- The tail of `processClasses` after the registry mutation (`s2` is the
state with the new classes already added):
`compiler.build(Array.from(processedClasses))` followed by
`sheet.textContent = compiledCss`.  A missing compiler or sheet would be a
JS `TypeError` (shown unreachable below). -/
def buildStep (s2 : TWState) : TWState × Option String :=
  match s2.compiler with
  | none => (s2, some "TypeError: compiler is undefined")
  | some compiler =>
    match compiler.build s2.processedClasses with
    | .error e => (s2, some e)
    | .ok compiledCss =>
      match s2.sheet with
      | none => (s2, some "TypeError: sheet is undefined")
      | some _ => ({ s2 with sheet := some compiledCss }, none)

/-- The body of `processClasses` after the compiler is known to be
initialized: filter out already-processed classes, return early when none
are new, otherwise add them to the registry and run the build step. -/
def processClassesCore (s1 : TWState) (classNames : List String) :
    TWState × Option String :=
  if (newClassesOf s1 classNames).isEmpty then (s1, none)
  else
    buildStep
      { s1 with
        processedClasses := insertAll s1.processedClasses (newClassesOf s1 classNames) }

/-- `processClasses(classNames)`: ensure the compiler is initialized
(auto-initializing with the default CSS on first demand), then run the
core.  The second component is the rethrown error, if any; the first
component is the state at the moment the function returns or throws (JS
mutations performed before a throw persist). -/
def processClasses (env : Env) (classNames : List String) (s : TWState) :
    TWState × Option String :=
  match (if s.compiler.isNone then initializeCompiler env none s else (s, none)) with
  | (s1, some e) => (s1, some e)
  | (s1, none) => processClassesCore s1 classNames

/-- Running one queued task:
`buildQueue.then(() => processClasses(classNames)).catch((err) => I.error(err))`.
An error raised by `processClasses` is caught and reported to the
instrumentation channel (appended to `errorLog`); it never escapes. -/
def runTask (env : Env) (classNames : List String) (s : TWState) : TWState :=
  match processClasses env classNames s with
  | (s1, none) => s1
  | (s1, some e) => { s1 with errorLog := s1.errorLog ++ [e] }

/-- `queueClassProcessing(classNames)`: append one task to the FIFO queue. -/
def queueClassProcessing (classNames : List String) (s : SysState) : SysState :=
  { s with queue := s.queue ++ [classNames] }

/-- The event loop running the continuation at the head of the promise
chain: pop the oldest pending task and execute it (with its `catch`). -/
def runNextTask (env : Env) (s : SysState) : SysState :=
  match s.queue with
  | [] => s
  | t :: rest => { core := runTask env t s.core, queue := rest }

/-- Collect the maximal runs of non-whitespace characters, accumulating the
current (reversed) run in `cur`. -/
def wordsAux : List Char → List Char → List String
  | [], cur => if cur.isEmpty then [] else [String.mk cur.reverse]
  | c :: rest, cur =>
    if c.isWhitespace then
      (if cur.isEmpty then wordsAux rest [] else String.mk cur.reverse :: wordsAux rest [])
    else wordsAux rest (c :: cur)

/-- `parseClassString(input)`: `input.trim().split(/\s+/).filter(Boolean)`,
i.e. the maximal whitespace-free runs of the input (trimming and dropping
the empty fragments produced by leading, trailing or repeated whitespace). -/
def parseClassString (input : String) : List String :=
  wordsAux input.toList []

/-- One element of the variadic argument list of `tw`: a string, a boolean,
`null`/`undefined`, or an object mapping class-name keys to boolean
conditions (in key-enumeration order). -/
inductive TwInput where
  | str : String → TwInput
  | boolv : Bool → TwInput
  | nullv : TwInput
  | obj : List (String × Bool) → TwInput

/-- JS truthiness of a `tw` argument (`if (!input) continue`): the empty
string, `false`, `null` and `undefined` are falsy; objects are truthy. -/
def TwInput.truthy : TwInput → Bool
  | .str s => !s.isEmpty
  | .boolv b => b
  | .nullv => false
  | .obj _ => true

/-- The loop body of `tw` for one input, updating the pair
`(resultClasses, allClassesToProcess)`. -/
def twStep (acc : List String × List String) (input : TwInput) :
    List String × List String :=
  if !input.truthy then acc
  else
    match input with
    | .str s =>
      let parsedClasses := parseClassString s
      (acc.1 ++ parsedClasses, acc.2 ++ parsedClasses)
    | .obj entries =>
      entries.foldl
        (fun acc2 entry =>
          let parsedClasses := parseClassString entry.1
          ((if entry.2 then acc2.1 ++ parsedClasses else acc2.1),
            acc2.2 ++ parsedClasses))
        acc
    | _ => acc

/-- The two class lists accumulated by `tw` over all its inputs:
`(resultClasses, allClassesToProcess)`. -/
def twClasses (inputs : List TwInput) : List String × List String :=
  inputs.foldl twStep ([], [])

/-- The public entry point `tw(...inputs)`: synchronously returns
`resultClasses.join(' ')` and enqueues `allClassesToProcess` as one build
task. -/
def tw (inputs : List TwInput) (s : SysState) : String × SysState :=
  let r := twClasses inputs
  (String.intercalate " " r.1, queueClassProcessing r.2 s)

/-- The static assets bundled with the browser build (`./assets`): the
contents of the four built-in stylesheets.  Their text is irrelevant to
the control flow, so they are a parameter. -/
structure Assets where
  index : String
  preflight : String
  theme : String
  utilities : String

/-- The value returned by a successful `loadStylesheet`. -/
structure StylesheetRef where
  path : String
  base : String
  content : String
deriving DecidableEq

/-- `loadStylesheet(id, base)`: the fixed alias table of the browser
build; any other id throws an error naming it. -/
def loadStylesheet (assets : Assets) (id : String) (base : String) :
    Except String StylesheetRef :=
  if id == "tailwindcss" then
    .ok ⟨"virtual:tailwindcss/index.css", base, assets.index⟩
  else if id == "tailwindcss/preflight" || id == "tailwindcss/preflight.css"
      || id == "./preflight.css" then
    .ok ⟨"virtual:tailwindcss/preflight.css", base, assets.preflight⟩
  else if id == "tailwindcss/theme" || id == "tailwindcss/theme.css"
      || id == "./theme.css" then
    .ok ⟨"virtual:tailwindcss/theme.css", base, assets.theme⟩
  else if id == "tailwindcss/utilities" || id == "tailwindcss/utilities.css"
      || id == "./utilities.css" then
    .ok ⟨"virtual:tailwindcss/utilities.css", base, assets.utilities⟩
  else
    .error ("The browser build does not support @import for \"" ++ id ++ "\"")

/-- `loadModule()`: always throws; the browser build supports no plugins
or config files. -/
def loadModule : Except String Unit :=
  .error "The browser build does not support plugins or config files."

/-- The identifiers accepted by `loadStylesheet`. -/
def supportedIds : List String :=
  ["tailwindcss",
   "tailwindcss/preflight", "tailwindcss/preflight.css", "./preflight.css",
   "tailwindcss/theme", "tailwindcss/theme.css", "./theme.css",
   "tailwindcss/utilities", "tailwindcss/utilities.css", "./utilities.css"]

/-- One externally observable action on the module: a call of the public
entry point `tw`, or the event loop running the next queued build task. -/
inductive Op where
  | call : List TwInput → Op
  | run : Op

/-- Execute one action. -/
def stepOp (env : Env) (s : SysState) : Op → SysState
  | .call inputs => (tw inputs s).2
  | .run => runNextTask env s

/-- Execute a sequence of actions. -/
def runOps (env : Env) (s : SysState) (ops : List Op) : SysState :=
  ops.foldl (stepOp env) s

/-! ### Basic lemmas about the registry operations -/

theorem contains_iff_mem_str (l : List String) (a : String) :
    l.contains a = true ↔ a ∈ l := List.elem_iff

theorem mem_insertClass_left (l : List String) (c x : String) (h : x ∈ l) :
    x ∈ insertClass l c := by
  unfold insertClass
  split
  · exact h
  · exact List.mem_append.mpr (Or.inl h)

theorem mem_insertAll_left (cs l : List String) (x : String) (h : x ∈ l) :
    x ∈ insertAll l cs := by
  induction cs generalizing l with
  | nil => exact h
  | cons c cs ih => exact ih (insertClass l c) (mem_insertClass_left l c x h)

theorem mem_insertClass_self (l : List String) (c : String) :
    c ∈ insertClass l c := by
  unfold insertClass
  split
  · exact (contains_iff_mem_str l c).mp (by assumption)
  · exact List.mem_append.mpr (Or.inr (List.mem_singleton.mpr rfl))

theorem mem_insertAll_right (cs l : List String) (x : String) (h : x ∈ cs) :
    x ∈ insertAll l cs := by
  induction cs generalizing l with
  | nil => cases h
  | cons c cs ih =>
    rcases List.mem_cons.mp h with rfl | h2
    · exact mem_insertAll_left cs (insertClass l x) x (mem_insertClass_self l x)
    · exact ih (insertClass l c) h2

theorem mem_insertAll (cs l : List String) (x : String) :
    x ∈ insertAll l cs ↔ x ∈ l ∨ x ∈ cs := by
  constructor
  · intro h
    induction cs generalizing l with
    | nil => exact Or.inl h
    | cons c cs ih =>
      rcases ih (insertClass l c) h with h2 | h2
      · unfold insertClass at h2
        split at h2
        · exact Or.inl h2
        · rcases List.mem_append.mp h2 with h3 | h3
          · exact Or.inl h3
          · exact Or.inr (List.mem_cons.mpr (Or.inl (List.mem_singleton.mp h3)))
      · exact Or.inr (List.mem_cons.mpr (Or.inr h2))
  · intro h
    rcases h with h | h
    · exact mem_insertAll_left cs l x h
    · exact mem_insertAll_right cs l x h

/-! ### Control-flow lemmas about `processClasses` -/

theorem processClasses_of_isSome (env : Env) (cs : List String) (s : TWState)
    (hc : s.compiler.isSome = true) :
    processClasses env cs s = processClassesCore s cs := by
  obtain ⟨comp, reg, sh, log⟩ := s
  cases comp
  · cases hc
  · rfl

theorem processClasses_of_none (env : Env) (cs : List String) (s : TWState)
    (hc : s.compiler = none) :
    processClasses env cs s =
      match env.compile defaultCss with
      | .error e => (s, some e)
      | .ok c => processClassesCore (installCompiler c s) cs := by
  obtain ⟨comp, reg, sh, log⟩ := s
  cases hc
  cases henv : env.compile defaultCss <;>
    simp only [processClasses, initializeCompiler, Option.getD, installCompiler, henv] <;> rfl

theorem newClassesOf_eq_nil (s : TWState) (cs : List String)
    (hall : ∀ x ∈ cs, x ∈ s.processedClasses) :
    newClassesOf s cs = [] := by
  unfold newClassesOf
  refine List.filter_eq_nil_iff.mpr (fun a ha => ?_)
  rw [(contains_iff_mem_str s.processedClasses a).mpr (hall a ha)]
  simp

theorem processClassesCore_skip (s : TWState) (cs : List String)
    (hall : ∀ x ∈ cs, x ∈ s.processedClasses) :
    processClassesCore s cs = (s, none) := by
  unfold processClassesCore
  rw [newClassesOf_eq_nil s cs hall]
  rfl

theorem buildStep_cases (s : TWState) :
    (buildStep s).1 = s ∨ ∃ css, buildStep s = ({ s with sheet := some css }, none) := by
  unfold buildStep
  repeat' split
  all_goals first
    | exact Or.inl rfl
    | exact Or.inr ⟨_, rfl⟩

theorem buildStep_error (s : TWState) (e : String)
    (h : (buildStep s).2 = some e) : (buildStep s).1 = s := by
  rcases buildStep_cases s with h1 | ⟨css, h1⟩
  · exact h1
  · rw [h1] at h; cases h

theorem buildStep_registry (s : TWState) :
    (buildStep s).1.processedClasses = s.processedClasses := by
  rcases buildStep_cases s with h1 | ⟨css, h1⟩ <;> rw [h1]

theorem buildStep_compiler (s : TWState) :
    (buildStep s).1.compiler = s.compiler := by
  rcases buildStep_cases s with h1 | ⟨css, h1⟩ <;> rw [h1]

theorem processClassesCore_registry (s : TWState) (cs : List String) :
    (processClassesCore s cs).1.processedClasses =
      insertAll s.processedClasses (newClassesOf s cs) := by
  unfold processClassesCore
  split
  · next h =>
    rw [List.isEmpty_iff.mp h]
    rfl
  · rw [buildStep_registry]

theorem contains_eq_false_str (l : List String) (a : String) (h : a ∉ l) :
    l.contains a = false := by
  cases h2 : l.contains a
  · rfl
  · exact absurd ((contains_iff_mem_str l a).mp h2) h

theorem processClassesCore_compiler (s : TWState) (cs : List String) :
    (processClassesCore s cs).1.compiler = s.compiler := by
  unfold processClassesCore
  split
  · rfl
  · rw [buildStep_compiler]

theorem processClassesCore_mem (s : TWState) (cs : List String) (x : String)
    (hx : x ∈ cs) : x ∈ (processClassesCore s cs).1.processedClasses := by
  rw [processClassesCore_registry]
  by_cases hmem : x ∈ s.processedClasses
  · exact mem_insertAll_left _ _ _ hmem
  · refine mem_insertAll_right _ _ _ ?_
    exact List.mem_filter.mpr ⟨hx, by rw [contains_eq_false_str _ _ hmem]; rfl⟩

theorem processClassesCore_mem_left (s : TWState) (cs : List String) (x : String)
    (hx : x ∈ s.processedClasses) :
    x ∈ (processClassesCore s cs).1.processedClasses := by
  rw [processClassesCore_registry]
  exact mem_insertAll_left _ _ _ hx

theorem installCompiler_registry (c : Engine) (s : TWState) :
    (installCompiler c s).processedClasses = s.processedClasses := rfl

theorem processClasses_ok (env : Env) (cs : List String) (s s1 : TWState)
    (h : processClasses env cs s = (s1, none)) :
    s1.compiler.isSome = true ∧ ∀ x ∈ cs, x ∈ s1.processedClasses := by
  cases hc : s.compiler with
  | some c =>
    rw [processClasses_of_isSome env cs s (by rw [hc]; rfl)] at h
    constructor
    · have h2 := processClassesCore_compiler s cs
      rw [h] at h2
      rw [h2, hc]
      rfl
    · intro x hx
      have h2 := processClassesCore_mem s cs x hx
      rw [h] at h2
      exact h2
  | none =>
    rw [processClasses_of_none env cs s hc] at h
    cases henv : env.compile defaultCss with
    | error e => rw [henv] at h; cases h
    | ok c =>
      rw [henv] at h
      have h0 : processClassesCore (installCompiler c s) cs = (s1, none) := h
      constructor
      · have h2 := processClassesCore_compiler (installCompiler c s) cs
        rw [h0] at h2
        rw [h2]
        rfl
      · intro x hx
        have h2 := processClassesCore_mem (installCompiler c s) cs x hx
        rw [h0] at h2
        exact h2

theorem processClasses_mem_left (env : Env) (cs : List String) (s : TWState)
    (x : String) (hx : x ∈ s.processedClasses) :
    x ∈ (processClasses env cs s).1.processedClasses := by
  cases hc : s.compiler with
  | some c =>
    rw [processClasses_of_isSome env cs s (by rw [hc]; rfl)]
    exact processClassesCore_mem_left s cs x hx
  | none =>
    rw [processClasses_of_none env cs s hc]
    cases henv : env.compile defaultCss with
    | error e => exact hx
    | ok c => exact processClassesCore_mem_left (installCompiler c s) cs x hx

theorem runTask_mem_left (env : Env) (cs : List String) (s : TWState)
    (x : String) (hx : x ∈ s.processedClasses) :
    x ∈ (runTask env cs s).processedClasses := by
  unfold runTask
  have h2 := processClasses_mem_left env cs s x hx
  split
  · next s1 heq => rw [heq] at h2; exact h2
  · next s1 e heq => rw [heq] at h2; exact h2

theorem stepOp_mem_left (env : Env) (s : SysState) (op : Op) (x : String)
    (hx : x ∈ s.core.processedClasses) :
    x ∈ (stepOp env s op).core.processedClasses := by
  cases op with
  | call inputs => exact hx
  | run =>
    unfold stepOp runNextTask
    cases s.queue with
    | nil => exact hx
    | cons t rest => exact runTask_mem_left env t s.core x hx

theorem runOps_mem_left (env : Env) (s : SysState) (ops : List Op) (x : String)
    (hx : x ∈ s.core.processedClasses) :
    x ∈ (runOps env s ops).core.processedClasses := by
  induction ops generalizing s with
  | nil => exact hx
  | cons op ops ih => exact ih (stepOp env s op) (stepOp_mem_left env s op x hx)

theorem buildStep_ok (c : Engine) (reg log : List String) (sh css : String)
    (hbuild : c.build reg = .ok css) :
    buildStep ⟨some c, reg, some sh, log⟩ = (⟨some c, reg, some css, log⟩, none) := by
  unfold buildStep
  dsimp only
  rw [hbuild]

theorem processClassesCore_build (s : TWState) (cs : List String)
    (hne : (newClassesOf s cs).isEmpty = false) :
    processClassesCore s cs =
      buildStep
        { s with
          processedClasses := insertAll s.processedClasses (newClassesOf s cs) } := by
  unfold processClassesCore
  rw [hne]
  simp

/-! ### Witness data: a concrete engine, environment and states -/

/-- A concrete engine whose build output records its input verbatim. -/
def engW : Engine := ⟨fun l => .ok (String.intercalate " " l)⟩

/-- A concrete environment that always hands out `engW`. -/
def envW : Env := ⟨fun _ => .ok engW⟩

/-- A state after one completed build of the single class `a`. -/
def stateW : TWState :=
  { compiler := some engW, processedClasses := ["a"], sheet := some "a", errorLog := [] }

/-- `stateW` after one further completed build adding the class `b`. -/
def state1W : TWState :=
  { compiler := some engW, processedClasses := ["a", "b"], sheet := some "a b",
    errorLog := [] }

/-! ### The claims -/

/-- C1: a build task whose input class names are all already members of the
registry performs no compile and leaves the stylesheet sink (and the whole
state) untouched: `processClasses` returns `(s, none)` for every
environment, so neither `tailwindcss.compile` nor `compiler.build` can
have been consulted.  In particular a second `processClasses` run on the
same input as a completed first run is such a task: it returns
`(s1, none)` for every environment. -/
theorem skip_already_processed (env env2 env3 : Env) (cs cs1 : List String)
    (s s0 s1 : TWState)
    (hc : s.compiler.isSome = true)
    (hall : ∀ x ∈ cs, x ∈ s.processedClasses)
    (hfirst : processClasses env2 cs1 s0 = (s1, none)) :
    processClasses env cs s = (s, none) ∧ processClasses env3 cs1 s1 = (s1, none) := by
  obtain ⟨hsome, hmem⟩ := processClasses_ok env2 cs1 s0 s1 hfirst
  constructor
  · rw [processClasses_of_isSome env cs s hc]
    exact processClassesCore_skip s cs hall
  · rw [processClasses_of_isSome env3 cs1 s1 hsome]
    exact processClassesCore_skip s1 cs1 hmem

/-- Witness for C1 at a concrete state: the registry holds `a`, the task
carries `a` again, and a first run adding `b` is re-run. -/
theorem skip_already_processed_witness :
    stateW.compiler.isSome = true ∧
    (∀ x ∈ (["a"] : List String), x ∈ stateW.processedClasses) ∧
    processClasses envW ["b"] stateW = (state1W, none) ∧
    (processClasses envW ["a"] stateW = (stateW, none) ∧
      processClasses envW ["b"] state1W = (state1W, none)) :=
  ⟨rfl, fun _ hx => hx, rfl,
    skip_already_processed envW envW envW ["a"] ["b"] stateW stateW state1W rfl
      (fun _ hx => hx) rfl⟩

/-- C2: every task that does compile passes `compiler.build` the entire
current registry, not only the names new in that task: for an arbitrary
build function `f`, the sink afterwards holds exactly `f` applied to the
full updated registry `insertAll s.processedClasses (newClassesOf s cs)`,
whose members are exactly the previously registered names together with
the task's input names. -/
theorem build_receives_full_registry (env : Env) (f : List String → String)
    (cs : List String) (s : TWState) (sh : String)
    (hc : s.compiler = some ⟨fun l => .ok (f l)⟩)
    (hsheet : s.sheet = some sh)
    (hne : (newClassesOf s cs).isEmpty = false) :
    processClasses env cs s =
      ({ s with
          processedClasses := insertAll s.processedClasses (newClassesOf s cs),
          sheet := some (f (insertAll s.processedClasses (newClassesOf s cs))) }, none) ∧
    (∀ x, x ∈ insertAll s.processedClasses (newClassesOf s cs) ↔
        x ∈ s.processedClasses ∨ x ∈ cs) := by
  constructor
  · rw [processClasses_of_isSome env cs s (by rw [hc]; rfl)]
    rw [processClassesCore_build s cs hne]
    obtain ⟨comp, reg, sh0, log⟩ := s
    dsimp only at hc hsheet ⊢
    cases hc
    cases hsheet
    exact buildStep_ok _ _ _ _ _ rfl
  · intro x
    rw [mem_insertAll]
    constructor
    · rintro (h | h)
      · exact Or.inl h
      · exact Or.inr (List.mem_filter.mp h).1
    · rintro (h | h)
      · exact Or.inl h
      · by_cases hmem : x ∈ s.processedClasses
        · exact Or.inl hmem
        · exact Or.inr
            (List.mem_filter.mpr ⟨h, by rw [contains_eq_false_str _ _ hmem]; rfl⟩)

/-- Witness for C2: registry `{a,b}`, task adds `c`; the build call
receives `[a,b,c]` and the sink records it. -/
theorem build_receives_full_registry_witness :
    state1W.compiler = some ⟨fun l => .ok (String.intercalate " " l)⟩ ∧
    state1W.sheet = some "a b" ∧
    (newClassesOf state1W ["c"]).isEmpty = false ∧
    (processClasses envW ["c"] state1W =
      ({ state1W with
          processedClasses := insertAll state1W.processedClasses (newClassesOf state1W ["c"]),
          sheet := some (String.intercalate " "
            (insertAll state1W.processedClasses (newClassesOf state1W ["c"]))) }, none) ∧
      (∀ x, x ∈ insertAll state1W.processedClasses (newClassesOf state1W ["c"]) ↔
          x ∈ state1W.processedClasses ∨ x ∈ (["c"] : List String))) ∧
    insertAll state1W.processedClasses (newClassesOf state1W ["c"]) = ["a", "b", "c"] :=
  ⟨rfl, rfl, rfl,
    build_receives_full_registry envW (fun l => String.intercalate " " l) ["c"] state1W
      "a b" rfl rfl rfl, rfl⟩

theorem twStep_obj (m : List (String × Bool)) (acc : List String × List String) :
    twStep acc (.obj m) =
      (acc.1 ++ (m.filter (fun e => e.2)).flatMap (fun e => parseClassString e.1),
       acc.2 ++ m.flatMap (fun e => parseClassString e.1)) := by
  unfold twStep
  simp only [TwInput.truthy, Bool.not_true, Bool.false_eq_true, if_false]
  induction m generalizing acc with
  | nil => simp
  | cons e m ih =>
    obtain ⟨k, b⟩ := e
    cases b <;> simp [ih, List.append_assoc]

theorem twStep_str (a : String) (acc : List String × List String) :
    twStep acc (.str a) = (acc.1 ++ parseClassString a, acc.2 ++ parseClassString a) := by
  unfold twStep
  by_cases h : a.isEmpty = true
  · rw [(String.isEmpty_iff a).mp h]
    simp [TwInput.truthy, parseClassString, wordsAux]
  · simp only [TwInput.truthy]
    rw [Bool.not_eq_true] at h
    rw [h]
    simp

/-- C3: the entry point `tw`, given a whitespace-delimited string and a
mapping from class names to booleans, synchronously returns the string
tokens plus exactly the truthy-valued keys, joined by single spaces in
encounter order, while enqueueing all tokens (truthy or not) as one
compilation task; and falsy inputs are skipped without error, as in the
two concrete calls of the claim. -/
theorem tw_active_and_candidates :
    (∀ (a : String) (m : List (String × Bool)) (s : SysState),
      tw [.str a, .obj m] s =
        (String.intercalate " "
          (parseClassString a ++
            (m.filter (fun e => e.2)).flatMap (fun e => parseClassString e.1)),
         { s with
            queue := s.queue ++
              [parseClassString a ++ m.flatMap (fun e => parseClassString e.1)] })) ∧
    (∀ s : SysState,
      tw [.str "a b", .obj [("c", true), ("d", false)]] s =
        ("a b c", { s with queue := s.queue ++ [["a", "b", "c", "d"]] })) ∧
    (∀ s : SysState,
      tw [.nullv, .boolv false, .nullv, .str "x"] s =
        ("x", { s with queue := s.queue ++ [["x"]] })) := by
  refine ⟨fun a m s => ?_, fun s => ?_, fun s => ?_⟩
  · unfold tw twClasses queueClassProcessing
    simp only [List.foldl_cons, List.foldl_nil, twStep_str, twStep_obj]
    simp
  · unfold tw twClasses queueClassProcessing
    rfl
  · unfold tw twClasses queueClassProcessing
    rfl

theorem runOps_append (env : Env) (s : SysState) (l1 l2 : List Op) :
    runOps env s (l1 ++ l2) = runOps env (runOps env s l1) l2 := by
  unfold runOps
  exact List.foldl_append _ _ _ _

/-- C4: the registry only grows: over any sequence of entry-point calls
and task executions, every class name present after a prefix of the
sequence is still present after the whole sequence; and inserting an
already-present name into the registry is a no-op. -/
theorem registry_monotone :
    (∀ (env : Env) (s : SysState) (l1 l2 : List Op),
      ∀ x ∈ (runOps env s l1).core.processedClasses,
        x ∈ (runOps env s (l1 ++ l2)).core.processedClasses) ∧
    (∀ (registry : List String) (cls : String),
      cls ∈ registry → insertClass registry cls = registry) := by
  constructor
  · intro env s l1 l2 x hx
    rw [runOps_append]
    exact runOps_mem_left env _ l2 x hx
  · intro registry cls h
    unfold insertClass
    rw [(contains_iff_mem_str registry cls).mpr h]
    rfl

/-- Witness for C4: after the call-and-run sequence registering `a`, the
name `a` survives a further call-and-run sequence registering `b`, and
re-inserting `a` into `[a, b]` is a no-op. -/
theorem registry_monotone_witness :
    "a" ∈ (runOps envW ⟨initialTW, []⟩
        [Op.call [TwInput.str "a"], Op.run]).core.processedClasses ∧
    "a" ∈ (runOps envW ⟨initialTW, []⟩
        ([Op.call [TwInput.str "a"], Op.run] ++
          [Op.call [TwInput.str "b"], Op.run])).core.processedClasses ∧
    "a" ∈ (["a", "b"] : List String) ∧
    insertClass ["a", "b"] "a" = ["a", "b"] :=
  have h1 : "a" ∈ (runOps envW ⟨initialTW, []⟩
      [Op.call [TwInput.str "a"], Op.run]).core.processedClasses := by decide
  ⟨h1,
   registry_monotone.1 envW ⟨initialTW, []⟩ [Op.call [TwInput.str "a"], Op.run]
     [Op.call [TwInput.str "b"], Op.run] "a" h1,
   by decide,
   registry_monotone.2 ["a", "b"] "a" (by decide)⟩

/-- C5: build tasks are serialized in FIFO order: two entry-point calls
issued back-to-back enqueue exactly their two candidate tasks in call
order, and the event loop then executes them strictly one after the
other — the second task starts from exactly the state produced by the
completed first task (registry mutation and conditional compile
included). -/
theorem tasks_run_serialized_fifo (env : Env) (i1 i2 : List TwInput) (s0 : SysState)
    (hq : s0.queue = []) :
    ((tw i2 (tw i1 s0).2).2).queue = [(twClasses i1).2, (twClasses i2).2] ∧
    runNextTask env (runNextTask env (tw i2 (tw i1 s0).2).2) =
      ⟨runTask env (twClasses i2).2 (runTask env (twClasses i1).2 s0.core), []⟩ := by
  obtain ⟨core0, q0⟩ := s0
  replace hq : q0 = [] := hq
  subst hq
  exact ⟨rfl, rfl⟩

/-- Witness for C5 at two concrete calls from the fresh state. -/
theorem tasks_run_serialized_fifo_witness :
    (SysState.mk initialTW []).queue = [] ∧
    (((tw [TwInput.str "b"] (tw [TwInput.str "a"] ⟨initialTW, []⟩).2).2).queue =
        [(twClasses [TwInput.str "a"]).2, (twClasses [TwInput.str "b"]).2] ∧
      runNextTask envW (runNextTask envW (tw [TwInput.str "b"]
          (tw [TwInput.str "a"] ⟨initialTW, []⟩).2).2) =
        ⟨runTask envW (twClasses [TwInput.str "b"]).2
          (runTask envW (twClasses [TwInput.str "a"]).2 initialTW), []⟩) :=
  ⟨rfl, tasks_run_serialized_fifo envW [TwInput.str "a"] [TwInput.str "b"]
    ⟨initialTW, []⟩ rfl⟩

/-- An engine whose build always throws, and an environment installing it:
used to witness failure claims. -/
def badEng : Engine := ⟨fun _ => .error "boom"⟩

/-- Environment whose compile succeeds but hands out the failing engine. -/
def envB : Env := ⟨fun _ => .ok badEng⟩

/-- C6: an error raised inside a build task is caught at the task boundary
and appended to the error log (the observability channel) instead of
propagating: `runTask` returns the task's final state with the error
recorded.  Afterwards the pipeline stays usable: any further entry-point
call still returns its combined class string unchanged, enqueues its
candidate task, and the event loop then runs exactly that task. -/
theorem task_failure_isolated (env env2 : Env) (t : List String) (s : TWState)
    (e : String) (h : (processClasses env t s).2 = some e) :
    runTask env t s =
      { (processClasses env t s).1 with
        errorLog := (processClasses env t s).1.errorLog ++ [e] } ∧
    ∀ (i : List TwInput) (q rest : List (List String)),
      tw i ⟨runTask env t s, q⟩ =
        (String.intercalate " " (twClasses i).1,
         ⟨runTask env t s, q ++ [(twClasses i).2]⟩) ∧
      runNextTask env2 ⟨runTask env t s, (twClasses i).2 :: rest⟩ =
        ⟨runTask env2 (twClasses i).2 (runTask env t s), rest⟩ := by
  constructor
  · unfold runTask
    cases hp : processClasses env t s with
    | mk s1 r =>
      rw [hp] at h
      replace h : r = some e := h
      subst h
      rfl
  · intro i q rest
    exact ⟨rfl, rfl⟩

/-- Witness for C6: the failing engine throws on the first task; the error
is logged and a second call still enqueues and runs. -/
theorem task_failure_isolated_witness :
    (processClasses envB ["a"] initialTW).2 = some "boom" ∧
    (runTask envB ["a"] initialTW =
      { (processClasses envB ["a"] initialTW).1 with
        errorLog := (processClasses envB ["a"] initialTW).1.errorLog ++ ["boom"] } ∧
    ∀ (i : List TwInput) (q rest : List (List String)),
      tw i ⟨runTask envB ["a"] initialTW, q⟩ =
        (String.intercalate " " (twClasses i).1,
         ⟨runTask envB ["a"] initialTW, q ++ [(twClasses i).2]⟩) ∧
      runNextTask envW ⟨runTask envB ["a"] initialTW, (twClasses i).2 :: rest⟩ =
        ⟨runTask envW (twClasses i).2 (runTask envB ["a"] initialTW), rest⟩) :=
  ⟨rfl, task_failure_isolated envB envW ["a"] initialTW "boom" rfl⟩

/-- C7: the stylesheet resolver succeeds exactly on the fixed alias table
`supportedIds` (the default entry point and the preflight, theme and
utilities sub-resources under canonical and path-shaped aliases), fails on
every other identifier with an error naming that identifier, and the
module-loading companion fails unconditionally. -/
theorem resolver_closed_table (assets : Assets) (id base : String) :
    ((loadStylesheet assets id base).isOk = supportedIds.contains id) ∧
    ((loadStylesheet assets id base).isOk = true ∨
      loadStylesheet assets id base =
        .error ("The browser build does not support @import for \"" ++ id ++ "\"")) ∧
    loadModule = .error "The browser build does not support plugins or config files." := by
  refine ⟨?_, ?_, rfl⟩
  · unfold loadStylesheet supportedIds
    repeat' split
    all_goals simp_all [List.contains_cons, beq_iff_eq, Except.isOk, Except.toBool]
    all_goals tauto
  · unfold loadStylesheet
    repeat' split
    all_goals first
      | exact Or.inl rfl
      | exact Or.inr rfl

/-- C8: a build task that runs while no compiler is installed does not
fail for that reason: `initializeCompiler` is invoked with the default CSS
source `@import "tailwindcss";`, installs the resulting engine, and the
task then proceeds exactly as it would from the already-initialized
state — `build` is never invoked on an uninitialized engine. -/
theorem auto_initialize_on_first_task (env : Env) (cs : List String) (s : TWState)
    (c : Engine) (hnone : s.compiler = none)
    (hok : env.compile defaultCss = .ok c) :
    initializeCompiler env none s = (installCompiler c s, none) ∧
    (installCompiler c s).compiler = some c ∧
    defaultCss = "@import \"tailwindcss\";" ∧
    processClasses env cs s = processClassesCore (installCompiler c s) cs := by
  refine ⟨?_, rfl, rfl, ?_⟩
  · simp only [initializeCompiler, Option.getD_none, hok]
  · rw [processClasses_of_none env cs s hnone, hok]

/-- Witness for C8: the very first task, from the fresh module state. -/
theorem auto_initialize_on_first_task_witness :
    initialTW.compiler = none ∧
    envW.compile defaultCss = Except.ok engW ∧
    (initializeCompiler envW none initialTW = (installCompiler engW initialTW, none) ∧
      (installCompiler engW initialTW).compiler = some engW ∧
      defaultCss = "@import \"tailwindcss\";" ∧
      processClasses envW ["a"] initialTW =
        processClassesCore (installCompiler engW initialTW) ["a"]) :=
  ⟨rfl, rfl, auto_initialize_on_first_task envW ["a"] initialTW engW rfl rfl⟩

/-- C9: when `initializeCompiler` fails because the underlying compile of
its CSS source throws, the module state is left exactly as it was: no new
engine is installed, and a previously installed engine instance remains
installed. -/
theorem failed_initialize_keeps_state (env : Env) (customCss : Option String)
    (s : TWState) (e : String)
    (h : env.compile (customCss.getD defaultCss) = .error e) :
    initializeCompiler env customCss s = (s, some e) ∧
    ∀ c, s.compiler = some c → (initializeCompiler env customCss s).1.compiler = some c := by
  have h1 : initializeCompiler env customCss s = (s, some e) := by
    simp only [initializeCompiler, h]
  exact ⟨h1, fun c hc => by rw [h1]; exact hc⟩

/-- An environment whose compile always throws: used to witness a failed
re-initialization. -/
def envErr : Env := ⟨fun _ => .error "parse error"⟩

/-- Witness for C9: re-initializing over the already-initialized `stateW`
with a failing compile leaves `stateW` (and its engine) in place. -/
theorem failed_initialize_keeps_state_witness :
    envErr.compile ((none : Option String).getD defaultCss) = .error "parse error" ∧
    (initializeCompiler envErr none stateW = (stateW, some "parse error") ∧
      ∀ c, stateW.compiler = some c →
        (initializeCompiler envErr none stateW).1.compiler = some c) :=
  ⟨rfl, failed_initialize_keeps_state envErr none stateW "parse error" rfl⟩

theorem buildStep_err (c : Engine) (reg log : List String) (sh0 : Option String)
    (e : String) (hbuild : c.build reg = .error e) :
    buildStep ⟨some c, reg, sh0, log⟩ = (⟨some c, reg, sh0, log⟩, some e) := by
  unfold buildStep
  dsimp only
  rw [hbuild]

theorem mem_insertAll_newClassesOf (s : TWState) (cs : List String) (x : String)
    (hx : x ∈ cs) : x ∈ insertAll s.processedClasses (newClassesOf s cs) := by
  by_cases hmem : x ∈ s.processedClasses
  · exact mem_insertAll_left _ _ _ hmem
  · exact mem_insertAll_right _ _ _
      (List.mem_filter.mpr ⟨hx, by rw [contains_eq_false_str _ _ hmem]; rfl⟩)

/-- C10: a build task inserts its new class names into the registry before
invoking `build`, and a failing build does not roll the insertion back:
the task ends in the state whose registry already holds the new names
(sheet untouched), every input name is then a registry member, and a later
task carrying only those names is skipped — it returns `(s2, none)` for
every environment, so it performs no compile. -/
theorem failed_build_keeps_registry (env : Env) (cs : List String) (s : TWState)
    (c : Engine) (e : String)
    (hc : s.compiler = some c)
    (hne : (newClassesOf s cs).isEmpty = false)
    (hb : c.build (insertAll s.processedClasses (newClassesOf s cs)) = .error e) :
    processClasses env cs s =
      ({ s with processedClasses := insertAll s.processedClasses (newClassesOf s cs) },
        some e) ∧
    (∀ x ∈ cs, x ∈ insertAll s.processedClasses (newClassesOf s cs)) ∧
    ∀ (env2 : Env) (cs2 : List String), (∀ x ∈ cs2, x ∈ cs) →
      processClasses env2 cs2
          { s with processedClasses := insertAll s.processedClasses (newClassesOf s cs) } =
        ({ s with processedClasses := insertAll s.processedClasses (newClassesOf s cs) },
          none) := by
  have h1 : processClasses env cs s =
      ({ s with processedClasses := insertAll s.processedClasses (newClassesOf s cs) },
        some e) := by
    rw [processClasses_of_isSome env cs s (by rw [hc]; rfl)]
    rw [processClassesCore_build s cs hne]
    obtain ⟨comp, reg, sh0, log⟩ := s
    dsimp only at hc hb ⊢
    cases hc
    exact buildStep_err _ _ _ _ _ hb
  refine ⟨h1, fun x hx => mem_insertAll_newClassesOf s cs x hx, ?_⟩
  intro env2 cs2 hsub
  rw [processClasses_of_isSome env2 cs2 _ (by dsimp only; rw [hc]; rfl)]
  exact processClassesCore_skip _ cs2
    (fun x hx => mem_insertAll_newClassesOf s cs x (hsub x hx))

/-- The state right after a successful initialization that installed the
failing engine. -/
def initialBW : TWState :=
  { compiler := some badEng, processedClasses := [], sheet := some "", errorLog := [] }

/-- Witness for C10: the failing engine on the first task carrying `a`;
the registry afterwards holds `a` and a repeat task carrying `a` is
skipped. -/
theorem failed_build_keeps_registry_witness :
    initialBW.compiler = some badEng ∧
    (newClassesOf initialBW ["a"]).isEmpty = false ∧
    badEng.build (insertAll initialBW.processedClasses (newClassesOf initialBW ["a"])) =
      .error "boom" ∧
    (processClasses envB ["a"] initialBW =
      ({ initialBW with
          processedClasses :=
            insertAll initialBW.processedClasses (newClassesOf initialBW ["a"]) },
        some "boom") ∧
    (∀ x ∈ (["a"] : List String),
      x ∈ insertAll initialBW.processedClasses (newClassesOf initialBW ["a"])) ∧
    ∀ (env2 : Env) (cs2 : List String), (∀ x ∈ cs2, x ∈ (["a"] : List String)) →
      processClasses env2 cs2
          { initialBW with
            processedClasses :=
              insertAll initialBW.processedClasses (newClassesOf initialBW ["a"]) } =
        ({ initialBW with
            processedClasses :=
              insertAll initialBW.processedClasses (newClassesOf initialBW ["a"]) },
          none)) :=
  ⟨rfl, rfl, rfl,
    failed_build_keeps_registry envB ["a"] initialBW badEng "boom" rfl rfl rfl⟩
